import Mathlib

/-!
Verification development for the Electric Maple streaming server
(`server/src/ems/gst`): a shallow embedding of the multi-peer connection
lifecycle manager, the frame/metadata multiplexing protocol, the frame
source timestamping logic, and the DownMessage loss monitor, together
with theorems settling the specified properties.

Byte buffers are modelled as `List Nat`, machine integers as `Nat`/`Int`
with explicit wrap-around where the C code uses fixed-width arithmetic.
-/

set_option maxRecDepth 4096

namespace Ems

/-! ## Metadata multiplexer (`rtppay_probe`)

`rtppay_probe` intercepts every packetized buffer after the RTP
payloader.  An RTP buffer is modelled by its two-byte-header extension
element list (identifier, data); the attached custom meta carrying the
serialized DownMessage is an optional byte list. -/

/-- Reserved protocol-wide extension identifier, must be in [1,15]
(`RTP_TWOBYTES_HDR_EXT_ID` in the source). -/
def RTP_TWOBYTES_HDR_EXT_ID : Nat := 1

/-- Maximum payload of one two-byte-header extension element
(`RTP_TWOBYTES_HDR_EXT_MAX_SIZE` in the source). -/
def RTP_TWOBYTES_HDR_EXT_MAX_SIZE : Nat := 255

/-- An outgoing RTP packet: opaque payload bytes plus the list of
two-byte-header extension elements `(id, data)` present on it. -/
structure RtpPacket where
  payload : List Nat
  extensions : List (Nat × List Nat)
deriving DecidableEq

/-- A buffer arriving at the probe: the RTP packet plus the optional
"down-message" custom meta holding the serialized protobuf bytes
(attached by `ems_gstreamer_src_push_frame`). -/
structure MetaBuffer where
  rtp : RtpPacket
  downMessage : Option (List Nat)
deriving DecidableEq

/-- Embedding of `rtppay_probe`: if no "down-message" custom meta is
attached, pass the packet through unmodified; if the serialized size
exceeds `RTP_TWOBYTES_HDR_EXT_MAX_SIZE`, log and pass the packet through
unmodified; otherwise append a single two-byte-header extension element
under `RTP_TWOBYTES_HDR_EXT_ID` carrying the payload bytes
(`gst_rtp_buffer_add_extension_twobytes_header`). -/
def rtppay_probe (buf : MetaBuffer) : MetaBuffer :=
  match buf.downMessage with
  | none => buf
  | some data =>
    if data.length > RTP_TWOBYTES_HDR_EXT_MAX_SIZE then
      buf
    else
      { buf with
        rtp := { buf.rtp with
          extensions := buf.rtp.extensions ++ [(RTP_TWOBYTES_HDR_EXT_ID, data)] } }

/-- Receiver-side extraction: the data of the first two-byte-header
extension element with the given identifier, if any. -/
def extractExtension (p : RtpPacket) (id : Nat) : Option (List Nat) :=
  (p.extensions.find? (fun e => e.1 == id)).map (·.2)

/-! ## DownMessage loss monitor (`benchmark_down_msg_loss`)

The loss window is a `GSList` of `gint`; each recorded id is the
`frame_sequence_id` (a `uint64`) cast to `gint`, prepended to the list.
On report the list is sorted ascending with `compare_int_ascending` and
consecutive pairs are walked summing positive `(next - previous - 1)`
gaps into `down_msg_loss_accumulator`. -/

/-- The C cast `(gint)msg.frame_data.frame_sequence_id`: reduce the
64-bit unsigned id modulo 2^32 and reinterpret as two's-complement
signed 32-bit. -/
def toGint (id : Nat) : Int :=
  let m : Nat := id % 2 ^ 32
  if m < 2 ^ 31 then (m : Int) else (m : Int) - 2 ^ 32

/-- `g_slist_prepend` of the truncated id onto the loss window. -/
def recordDownMsg (window : List Int) (id : Nat) : List Int :=
  toGint id :: window

/-- `compare_int_ascending`: the comparator passed to `g_slist_sort`
(mathematical difference; the C `gint` difference agrees on all inputs
whose difference fits in 32 bits). -/
def compare_int_ascending (a b : Int) : Int := a - b

/-- Insert into an ascending list according to `compare_int_ascending`. -/
def insertAscending (x : Int) : List Int → List Int
  | [] => [x]
  | y :: ys =>
    if compare_int_ascending x y ≤ 0 then x :: y :: ys else y :: insertAscending x ys

/-- `g_slist_sort` with `compare_int_ascending`: sort ascending. -/
def sortWindow : List Int → List Int
  | [] => []
  | x :: xs => insertAscending x (sortWindow xs)

/-- The gap walk of `benchmark_down_msg_loss`: sort the window
ascending, then walk consecutive pairs with sentinel `last = -1`,
summing `num_skipped = current - last - 1` whenever positive. -/
def down_msg_loss_accumulator (window : List Int) : Int :=
  let sorted := sortWindow window
  (sorted.foldl
    (fun (acc : Int × Int) current =>
      let num_skipped := current - acc.1 - 1
      (current, if acc.1 ≠ -1 ∧ num_skipped > 0 then acc.2 + num_skipped else acc.2))
    ((-1 : Int), (0 : Int))).2

/-- Comparison baseline for the truncation claim: the same gap walk run
on the true 64-bit ids, without the cast to `gint`. -/
def trueSkipCount (ids : List Nat) : Int :=
  down_msg_loss_accumulator (ids.map Int.ofNat)

/-! ## Frame source (`ems_gstreamer_src_push_frame`)

The source keeps two `uint64` fields across calls, `offset_ns` and
`timestamp_ns`, both zero-initialized by `U_TYPED_CALLOC`.  Each push
computes `GST_BUFFER_PTS = xtimestamp_ns - offset_ns` (latching
`offset_ns` to the first nonzero capture timestamp via the
`offset_ns == 0` check) and `GST_BUFFER_DURATION = xtimestamp_ns -
timestamp_ns`, then packages the DownMessage bytes into a custom meta;
if the packaging buffer allocation (`gst_buffer_new_memdup`) or the meta
attachment (`gst_buffer_add_custom_meta`) fails the function logs and
returns early, and otherwise hands the buffer to
`gst_app_src_push_buffer`, logging a non-fatal error on failure. -/

/-- Modulus of the `uint64` fields. -/
def U64 : Nat := 2 ^ 64

/-- `uint64` subtraction `a - b` with wrap-around (operands < `U64`). -/
def usub (a b : Nat) : Nat := (U64 + a - b) % U64

/-- The state `ems_gstreamer_src` carries across pushes. -/
structure SrcState where
  offset_ns : Nat
  timestamp_ns : Nat
deriving DecidableEq

/-- Zero-initialized state produced by `U_TYPED_CALLOC`. -/
def initSrc : SrcState := ⟨0, 0⟩

/-- Results of the three fallible external calls inside one push, as
seen by the control flow of `ems_gstreamer_src_push_frame`. -/
structure PushEnv where
  allocOk : Bool
  metaOk : Bool
  pushOk : Bool
deriving DecidableEq

/-- All three external calls succeed. -/
def allOk : PushEnv := ⟨true, true, true⟩

/-- Whether the frame buffer reached `gst_app_src_push_buffer`, and with
what flow result. -/
inductive PushOutcome
  | notPushed
  | pushedWithMeta (flowOk : Bool)
deriving DecidableEq

/-- Embedding of `ems_gstreamer_src_push_frame` on one frame with
capture timestamp `ts`: returns the updated state, the assigned
`GST_BUFFER_PTS`, the assigned `GST_BUFFER_DURATION` and the outcome of
the push.  The state update precedes the packaging in the source, so it
happens even when packaging fails. -/
def ems_gstreamer_src_push_frame (gs : SrcState) (ts : Nat) (env : PushEnv) :
    SrcState × Nat × Nat × PushOutcome :=
  let off := if gs.offset_ns = 0 then ts else gs.offset_ns
  let pts := usub ts off
  let dur := usub ts gs.timestamp_ns
  let outcome :=
    if env.allocOk = false then PushOutcome.notPushed
    else if env.metaOk = false then PushOutcome.notPushed
    else PushOutcome.pushedWithMeta env.pushOk
  (⟨off, ts⟩, pts, dur, outcome)

/-- Run a sequence of pushes, collecting `(pts, duration, outcome)` per
frame. -/
def pushFrames (gs : SrcState) : List (Nat × PushEnv) → List (Nat × Nat × PushOutcome)
  | [] => []
  | (ts, env) :: rest =>
    let r := ems_gstreamer_src_push_frame gs ts env
    r.2 :: pushFrames r.1 rest

/-- The source state after a sequence of pushes. -/
def runState (gs : SrcState) : List (Nat × PushEnv) → SrcState
  | [] => gs
  | (ts, env) :: rest => runState (ems_gstreamer_src_push_frame gs ts env).1 rest

/-- Presentation timestamps assigned to a capture-timestamp sequence
pushed from the initial state with all external calls succeeding. -/
def ptsList (tss : List Nat) : List Nat :=
  (pushFrames initSrc (tss.map (fun t => (t, allOk)))).map (·.1)

/-- Durations assigned to a capture-timestamp sequence pushed from the
initial state with all external calls succeeding. -/
def durList (tss : List Nat) : List Nat :=
  (pushFrames initSrc (tss.map (fun t => (t, allOk)))).map (fun r => r.2.1)

/-! ## Connection lifecycle (`webrtc_client_disconnected_cb`,
`remove_webrtcbin_probe_cb`, `get_webrtcbin_for_client`)

Per-endpoint teardown follows GStreamer pad-probe semantics: the
disconnect handler installs a `GST_PAD_PROBE_TYPE_BLOCK_DOWNSTREAM`
probe on the tee pad feeding the endpoint, and only once the pad is
blocked does GStreamer invoke `remove_webrtcbin_probe_cb`, which removes
the webrtcbin from the pipeline and stops it.  We model one endpoint's
delivery path as a three-phase machine and the pipeline's endpoint
registry as an association list keyed by client id. -/

/-- Phase of one endpoint's delivery path. -/
inductive EpPhase
  | live
  | blocked
  | removed
deriving DecidableEq

/-- Events on one endpoint: a media packet delivered through the tee
pad, the blocking probe installed by `webrtc_client_disconnected_cb`,
and the removal performed by `remove_webrtcbin_probe_cb`. -/
inductive EpEvent
  | deliver
  | blockPad
  | removeBin
deriving DecidableEq

/-- One step of the endpoint teardown machine: packets flow only while
the pad is unblocked; the blocking probe fires on a live pad; the
removal callback runs only once the pad is blocked (pad-probe
semantics); nothing happens on a removed endpoint. -/
def epStep : EpPhase → EpEvent → Option EpPhase
  | EpPhase.live, EpEvent.deliver => some EpPhase.live
  | EpPhase.live, EpEvent.blockPad => some EpPhase.blocked
  | EpPhase.blocked, EpEvent.removeBin => some EpPhase.removed
  | _, _ => none

/-- Run an event trace from a phase; `none` when some event is not
enabled. -/
def epRun (p : EpPhase) : List EpEvent → Option EpPhase
  | [] => some p
  | e :: es =>
    match epStep p e with
    | some p' => epRun p' es
    | none => none

/-- `get_webrtcbin_for_client`: look the endpoint up by client id in the
pipeline bin (`gst_bin_get_by_name` over `webrtcbin_%p` names). -/
def get_webrtcbin_for_client (eps : List (Nat × EpPhase)) (cid : Nat) : Option EpPhase :=
  (eps.find? (fun e => e.1 == cid)).map (·.2)

/-- `webrtc_client_disconnected_cb`: look the endpoint up by client id;
if absent do nothing, otherwise install the blocking probe on its
feeding pad. -/
def webrtc_client_disconnected (eps : List (Nat × EpPhase)) (cid : Nat) :
    List (Nat × EpPhase) :=
  match eps.find? (fun e => e.1 == cid) with
  | none => eps
  | some _ => eps.map (fun e => if e.1 == cid then (e.1, EpPhase.blocked) else e)

/-- `remove_webrtcbin_probe_cb`'s `gst_bin_remove`: drop the endpoint
from the pipeline registry, so later name lookups fail. -/
def remove_webrtcbin (eps : List (Nat × EpPhase)) (cid : Nat) : List (Nat × EpPhase) :=
  eps.filter (fun e => !(e.1 == cid))

/-! ## Data channel inbound messages (`data_channel_message_data_cb`)

Inbound bytes are decoded as `UpMessage` by nanopb (external; abstracted
as a decode function); on failure the handler logs and returns, on
success it invokes `ems_callbacks_call` with the tracking event.  It
never closes the channel. -/

/-- Embedding of `data_channel_message_data_cb`: first component is the
message passed to the tracking-event callback collection (none when the
handler dropped the bytes), second component is whether the handler
closed the data channel. -/
def data_channel_message_data_cb (α : Type) (decode : List Nat → Option α)
    (bytes : List Nat) : Option α × Bool :=
  match decode bytes with
  | none => (none, false)
  | some msg => (some msg, false)

/-! ## Pipeline bus handler (`gst_bus_cb`)

On an error message the handler logs it, and exits the process only
when the error's domain is `GST_STREAM_ERROR` and its code is
`GST_STREAM_ERROR_FAILED`; any other error is logged and the handler
returns `TRUE` (normal operation).  EOS calls `g_error`, aborting. -/

/-- `GError` domains distinguished by the handler. -/
inductive GErrorDomain
  | streamError
  | otherDomain
deriving DecidableEq

/-- `GST_STREAM_ERROR_FAILED` in GStreamer's `GstStreamError` enum. -/
def GST_STREAM_ERROR_FAILED : Nat := 1

/-- `GST_STREAM_ERROR_ENCODE` in GStreamer's `GstStreamError` enum. -/
def GST_STREAM_ERROR_ENCODE : Nat := 8

/-- Bus messages as the handler distinguishes them. -/
inductive GstMessage
  | error (domain : GErrorDomain) (code : Nat)
  | warning
  | eos
  | otherMsg
deriving DecidableEq

/-- What the handler does with a message. -/
inductive BusAction
  | exitFailure
  | abortEos
  | keepRunning
deriving DecidableEq

/-- Embedding of `gst_bus_cb`'s control flow. -/
def gst_bus_cb : GstMessage → BusAction
  | GstMessage.error d c =>
    if d = GErrorDomain.streamError then
      if c = GST_STREAM_ERROR_FAILED then BusAction.exitFailure
      else BusAction.keepRunning
    else BusAction.keepRunning
  | GstMessage.warning => BusAction.keepRunning
  | GstMessage.eos => BusAction.abortEos
  | GstMessage.otherMsg => BusAction.keepRunning

/-! ## Helper lemmas -/

theorem usub_eq_sub (a b : Nat) (hba : b ≤ a) (ha : a < U64) : usub a b = a - b := by
  unfold usub
  have h1 : U64 + a - b = U64 + (a - b) := by omega
  rw [h1, Nat.add_mod_left, Nat.mod_eq_of_lt (by omega)]

theorem usub_self (a : Nat) : usub a a = 0 := by
  unfold usub
  have h1 : U64 + a - a = U64 := by omega
  rw [h1, Nat.mod_self]

/-- Presentation timestamps of a push sequence from an arbitrary state
(all external calls succeeding). -/
def ptsOf (gs : SrcState) (tss : List Nat) : List Nat :=
  (pushFrames gs (tss.map (fun t => (t, allOk)))).map (·.1)

/-- Durations of a push sequence from an arbitrary state (all external
calls succeeding). -/
def durOf (gs : SrcState) (tss : List Nat) : List Nat :=
  (pushFrames gs (tss.map (fun t => (t, allOk)))).map (fun r => r.2.1)

theorem ptsList_eq_ptsOf (tss : List Nat) : ptsList tss = ptsOf initSrc tss := rfl

theorem durList_eq_durOf (tss : List Nat) : durList tss = durOf initSrc tss := rfl

theorem ptsOf_nil (gs : SrcState) : ptsOf gs [] = [] := rfl

theorem ptsOf_cons (gs : SrcState) (t : Nat) (rest : List Nat) :
    ptsOf gs (t :: rest) =
      usub t (if gs.offset_ns = 0 then t else gs.offset_ns) ::
        ptsOf ⟨if gs.offset_ns = 0 then t else gs.offset_ns, t⟩ rest := rfl

theorem durOf_cons (gs : SrcState) (t : Nat) (rest : List Nat) :
    durOf gs (t :: rest) =
      usub t gs.timestamp_ns ::
        durOf ⟨if gs.offset_ns = 0 then t else gs.offset_ns, t⟩ rest := rfl

theorem ptsOf_offset_ne_zero (tss : List Nat) :
    ∀ gs : SrcState, gs.offset_ns ≠ 0 →
      ptsOf gs tss = tss.map (fun t => usub t gs.offset_ns) := by
  induction tss with
  | nil => intro gs _; rfl
  | cons t rest ih =>
    intro gs h
    rw [ptsOf_cons, if_neg h, List.map_cons, ih ⟨gs.offset_ns, t⟩ h]

theorem sorted_ptsOf_zero (tss : List Nat) :
    ∀ w : Nat, tss.Sorted (· ≤ ·) → (∀ t ∈ tss, t < U64) →
      (ptsOf ⟨0, w⟩ tss).Sorted (· ≤ ·) := by
  induction tss with
  | nil => intro w _ _; exact List.sorted_nil
  | cons t rest ih =>
    intro w hs hb
    obtain ⟨hhead, hrest⟩ := List.sorted_cons.1 hs
    have hoff : (SrcState.mk 0 w).offset_ns = 0 := rfl
    rw [ptsOf_cons, if_pos hoff, usub_self]
    by_cases ht : t = 0
    · subst ht
      have h := ih 0 hrest (fun x hx => hb x (List.mem_cons_of_mem _ hx))
      exact List.sorted_cons.2 ⟨fun b _ => Nat.zero_le b, h⟩
    · rw [ptsOf_offset_ne_zero rest ⟨t, t⟩ ht]
      have hmap : rest.map (fun x => usub x t) = rest.map (fun x => x - t) :=
        List.map_congr_left (fun x hx =>
          usub_eq_sub x t (hhead x hx) (hb x (List.mem_cons_of_mem _ hx)))
      rw [hmap]
      refine List.sorted_cons.2 ⟨fun b hbmem => ?_, ?_⟩
      · exact Nat.zero_le b
      · exact List.Pairwise.map _ (fun a b hab => Nat.sub_le_sub_right hab t) hrest

theorem epRun_removed (r : List EpEvent) (p : EpPhase)
    (h : epRun EpPhase.removed r = some p) : r = [] := by
  cases r with
  | nil => rfl
  | cons e es =>
    exfalso
    cases e <;> simp [epRun, epStep] at h

theorem epRun_live_inv (l : List EpEvent) :
    ∀ q : EpPhase, epRun EpPhase.live l = some q →
      q = EpPhase.live ∨ EpEvent.blockPad ∈ l := by
  induction l with
  | nil =>
    intro q h
    simp [epRun] at h
    exact Or.inl h.symm
  | cons e es ih =>
    intro q h
    cases e with
    | deliver =>
      rcases ih q (by simpa [epRun, epStep] using h) with h1 | h1
      · exact Or.inl h1
      · exact Or.inr (List.mem_cons_of_mem _ h1)
    | blockPad => exact Or.inr (List.mem_cons_self _ _)
    | removeBin => simp [epRun, epStep] at h

theorem epRun_append (l m : List EpEvent) :
    ∀ p : EpPhase, epRun p (l ++ m) = (epRun p l).bind (fun q => epRun q m) := by
  induction l with
  | nil => intro p; rfl
  | cons e es ih =>
    intro p
    cases hstep : epStep p e with
    | none => simp [epRun, hstep]
    | some p' => simp [epRun, hstep, ih p']

theorem pushFrames_append (l₁ : List (Nat × PushEnv)) :
    ∀ (l₂ : List (Nat × PushEnv)) (gs : SrcState),
      pushFrames gs (l₁ ++ l₂) = pushFrames gs l₁ ++ pushFrames (runState gs l₁) l₂ := by
  induction l₁ with
  | nil => intro l₂ gs; rfl
  | cons p rest ih =>
    intro l₂ gs
    obtain ⟨ts, env⟩ := p
    simp only [List.cons_append, pushFrames, runState]
    exact congrArg _ (ih l₂ (ems_gstreamer_src_push_frame gs ts env).1)

/-! ## Claim theorems -/

/-- C1: for every outgoing packetized buffer carrying an attached
metadata payload of serialized size at most 255 bytes, `rtppay_probe`
writes the payload as a single two-byte-header extension element under
the reserved identifier 1, and a receiver extracting that extension
recovers byte-identical content; for every payload larger than 255
bytes the metadata is dropped and the packet passes through unmodified,
with no side-channel extension, and the payload is never fragmented
across multiple extension elements. -/
theorem C1_metadata_multiplexer (buf : MetaBuffer) (hext : buf.rtp.extensions = []) :
    (∀ d, buf.downMessage = some d → d.length ≤ RTP_TWOBYTES_HDR_EXT_MAX_SIZE →
      (rtppay_probe buf).rtp.extensions = [(RTP_TWOBYTES_HDR_EXT_ID, d)] ∧
      extractExtension (rtppay_probe buf).rtp RTP_TWOBYTES_HDR_EXT_ID = some d) ∧
    (∀ d, buf.downMessage = some d → d.length > RTP_TWOBYTES_HDR_EXT_MAX_SIZE →
      rtppay_probe buf = buf ∧
      extractExtension (rtppay_probe buf).rtp RTP_TWOBYTES_HDR_EXT_ID = none) := by
  constructor
  · intro d hd hle
    have hprobe : rtppay_probe buf =
        { buf with rtp := { buf.rtp with
            extensions := buf.rtp.extensions ++ [(RTP_TWOBYTES_HDR_EXT_ID, d)] } } := by
      simp only [rtppay_probe, hd]
      exact if_neg (by omega)
    rw [hprobe]
    constructor
    · simp [hext]
    · simp [extractExtension, hext]
  · intro d hd hgt
    have hprobe : rtppay_probe buf = buf := by
      simp only [rtppay_probe, hd]
      exact if_pos hgt
    rw [hprobe]
    exact ⟨rfl, by simp [extractExtension, hext]⟩

/-- C1 witness: a 3-byte payload is recovered byte-identically from the
extension, and a 256-byte payload leaves the packet untouched. -/
theorem C1_witness :
    extractExtension (rtppay_probe ⟨⟨[9, 9], []⟩, some [1, 2, 3]⟩).rtp
        RTP_TWOBYTES_HDR_EXT_ID = some [1, 2, 3] ∧
    rtppay_probe ⟨⟨[9], []⟩, some (List.replicate 256 7)⟩ =
      ⟨⟨[9], []⟩, some (List.replicate 256 7)⟩ :=
  ⟨((C1_metadata_multiplexer ⟨⟨[9, 9], []⟩, some [1, 2, 3]⟩ rfl).1
      [1, 2, 3] rfl (by decide)).2,
   ((C1_metadata_multiplexer ⟨⟨[9], []⟩, some (List.replicate 256 7)⟩ rfl).2
      (List.replicate 256 7) rfl (by decide)).1⟩

/-- C4 counterexample: over a window containing exactly the sequence
ids {1,2,4,7}, the gap walk of `benchmark_down_msg_loss` does not
report 2 skipped payloads. -/
theorem C4_counterexample :
    down_msg_loss_accumulator (List.foldl recordDownMsg [] [1, 2, 4, 7]) ≠ 2 := by
  decide

/-- C4 (amended): over a window containing exactly the sequence ids
{1,2,4,7}, the periodic report counts 3 skipped metadata payloads —
the gap between 2 and 4 contributes 1 and the gap between 4 and 7
contributes 2 — obtained by sorting the window ascending, walking
consecutive pairs and summing `(next - previous - 1)` where positive. -/
theorem C4_loss_window_gaps :
    down_msg_loss_accumulator (List.foldl recordDownMsg [] [1, 2, 4, 7]) = 3 := by
  decide

/-- C6: endpoint removal is idempotent — a leave notification for an
identity with no live endpoint (never created, or already removed from
the pipeline) leaves the endpoint registry, and hence every other
peer's connection state, unchanged; and after `gst_bin_remove` the
identity no longer resolves, so further leaves hit the no-op path. -/
theorem C6_removal_idempotent (eps : List (Nat × EpPhase)) (cid : Nat) :
    (get_webrtcbin_for_client eps cid = none →
      webrtc_client_disconnected eps cid = eps) ∧
    get_webrtcbin_for_client (remove_webrtcbin eps cid) cid = none := by
  constructor
  · intro h
    have hfind : eps.find? (fun e => e.1 == cid) = none := by
      unfold get_webrtcbin_for_client at h
      exact Option.map_eq_none'.1 h
    unfold webrtc_client_disconnected
    rw [hfind]
  · unfold get_webrtcbin_for_client remove_webrtcbin
    rw [List.find?_eq_none.2 ?_]
    · rfl
    · intro x hx
      have hmem := (List.mem_filter.1 hx).2
      simp only [Bool.not_eq_true'] at hmem
      simp [hmem]

/-- C6 witness: a leave for the unknown identity 2 leaves the registry
`[(1, live)]` unchanged, and after removing identity 1 the lookup for 1
fails. -/
theorem C6_witness :
    webrtc_client_disconnected [(1, EpPhase.live)] 2 = [(1, EpPhase.live)] ∧
    get_webrtcbin_for_client (remove_webrtcbin [(1, EpPhase.live)] 1) 1 = none :=
  ⟨(C6_removal_idempotent [(1, EpPhase.live)] 2).1 (by decide),
   (C6_removal_idempotent [(1, EpPhase.live)] 1).2⟩

/-- C7: for every inbound data-channel byte message, the handler never
closes the channel; when decoding fails the tracking-event callback
collection is not invoked, and it is invoked with the decoded message
exactly when decoding succeeds. -/
theorem C7_malformed_upmessage_dropped (α : Type) (decode : List Nat → Option α)
    (bytes : List Nat) :
    (data_channel_message_data_cb α decode bytes).2 = false ∧
    (decode bytes = none → (data_channel_message_data_cb α decode bytes).1 = none) ∧
    (∀ m, decode bytes = some m →
      (data_channel_message_data_cb α decode bytes).1 = some m) := by
  cases h : decode bytes <;> simp [data_channel_message_data_cb, h]

/-- C7 witness: with a decoder accepting exactly singleton byte lists,
the malformed message `[1, 2]` is dropped without closing the channel. -/
theorem C7_witness :
    (data_channel_message_data_cb Nat
      (fun l => if l.length = 1 then some l.length else none) [1, 2]).2 = false ∧
    (data_channel_message_data_cb Nat
      (fun l => if l.length = 1 then some l.length else none) [1, 2]).1 = none :=
  ⟨(C7_malformed_upmessage_dropped Nat
      (fun l => if l.length = 1 then some l.length else none) [1, 2]).1,
   (C7_malformed_upmessage_dropped Nat
      (fun l => if l.length = 1 then some l.length else none) [1, 2]).2.1 (by decide)⟩

/-- C8 counterexample: a stream error with code `GST_STREAM_ERROR_ENCODE`
— a fatal encode error — is logged but the bus handler keeps running
instead of terminating the process. -/
theorem C8_counterexample :
    gst_bus_cb (GstMessage.error GErrorDomain.streamError GST_STREAM_ERROR_ENCODE) =
      BusAction.keepRunning ∧
    BusAction.keepRunning ≠ BusAction.exitFailure := by
  decide

/-- C8 (amended): the bus handler terminates the process (after logging)
exactly for an error whose domain is `GST_STREAM_ERROR` and whose code
is `GST_STREAM_ERROR_FAILED`; every other error message is logged and
the handler returns to normal operation. -/
theorem C8_fatal_error_exit (d : GErrorDomain) (c : Nat) :
    gst_bus_cb (GstMessage.error GErrorDomain.streamError GST_STREAM_ERROR_FAILED) =
      BusAction.exitFailure ∧
    (¬(d = GErrorDomain.streamError ∧ c = GST_STREAM_ERROR_FAILED) →
      gst_bus_cb (GstMessage.error d c) = BusAction.keepRunning) := by
  refine ⟨by decide, ?_⟩
  intro h
  cases d with
  | streamError =>
    have hc : ¬c = GST_STREAM_ERROR_FAILED := fun hc => h ⟨rfl, hc⟩
    simp [gst_bus_cb, hc]
  | otherDomain => simp [gst_bus_cb]

/-- C8 witness: the startup failure code exits; a non-stream-domain
error with code 5 keeps running. -/
theorem C8_witness :
    gst_bus_cb (GstMessage.error GErrorDomain.streamError GST_STREAM_ERROR_FAILED) =
      BusAction.exitFailure ∧
    gst_bus_cb (GstMessage.error GErrorDomain.otherDomain 5) = BusAction.keepRunning :=
  ⟨(C8_fatal_error_exit GErrorDomain.otherDomain 5).1,
   (C8_fatal_error_exit GErrorDomain.otherDomain 5).2 (by decide)⟩

/-- C9: every sequence id recorded into the loss window is first cast
to a signed 32-bit integer: ids below 2^31 are recorded exactly, while
the id 2^32 + 105 (which is ≥ 2^31) records as 105, and over the window
{100, 2^32 + 105} the reported gap count differs from the count the
true 64-bit ids would give. -/
theorem C9_sequence_id_truncation :
    (∀ id : Nat, id < 2 ^ 31 → toGint id = (id : Int)) ∧
    (2 ^ 31 ≤ (2 ^ 32 + 105 : Nat) ∧
      toGint (2 ^ 32 + 105) ≠ ((2 ^ 32 + 105 : Nat) : Int)) ∧
    down_msg_loss_accumulator (List.foldl recordDownMsg [] [100, 2 ^ 32 + 105]) ≠
      trueSkipCount [100, 2 ^ 32 + 105] := by
  refine ⟨?_, by decide, by decide⟩
  intro id h
  have h32 : id % 2 ^ 32 = id := Nat.mod_eq_of_lt (by omega)
  simp only [toGint, h32]
  rw [if_pos h]

/-- C9 witness: the id 5 (below 2^31) is recorded exactly. -/
theorem C9_witness : toGint 5 = (5 : Int) :=
  C9_sequence_id_truncation.1 5 (by decide)

/-- C2: in every accepted event trace of an endpoint's teardown machine
that contains a removal step, the delivery path was blocked strictly
before the removal, no event (in particular no delivery) follows the
removal, and a blocked endpoint accepts no delivery — so removal never
races with a packet in flight into the same endpoint. -/
theorem C2_block_before_remove (l r : List EpEvent) (p : EpPhase)
    (h : epRun EpPhase.live (l ++ EpEvent.removeBin :: r) = some p) :
    EpEvent.blockPad ∈ l ∧ r = [] ∧ epStep EpPhase.blocked EpEvent.deliver = none := by
  rw [epRun_append] at h
  cases hq : epRun EpPhase.live l with
  | none => rw [hq] at h; simp at h
  | some q =>
    rw [hq] at h
    cases q with
    | live => simp [Option.bind, epRun, epStep] at h
    | blocked =>
      have hr : epRun EpPhase.removed r = some p := by
        simpa [Option.bind, epRun, epStep] using h
      have hrnil := epRun_removed r p hr
      have hmem : EpEvent.blockPad ∈ l := by
        rcases epRun_live_inv l EpPhase.blocked hq with h1 | h1
        · exact absurd h1 (by decide)
        · exact h1
      exact ⟨hmem, hrnil, rfl⟩
    | removed =>
      have hr : epRun EpPhase.removed (EpEvent.removeBin :: r) = some p := by
        simpa [Option.bind] using h
      have := epRun_removed _ p hr
      simp at this

/-- C2 witness: the trace deliver, blockPad, removeBin is accepted and
the removal is preceded by the block. -/
theorem C2_witness :
    EpEvent.blockPad ∈ [EpEvent.deliver, EpEvent.blockPad] ∧
    ([] : List EpEvent) = [] ∧ epStep EpPhase.blocked EpEvent.deliver = none :=
  C2_block_before_remove [EpEvent.deliver, EpEvent.blockPad] [] EpPhase.removed
    (by decide)

/-- C5 counterexample: when the packaging buffer allocation fails, the
frame is not pushed into the pipeline at all — neither with nor without
metadata — contradicting the claim that it is still pushed. -/
theorem C5_counterexample :
    (ems_gstreamer_src_push_frame initSrc 5 ⟨false, true, true⟩).2.2.2 =
      PushOutcome.notPushed ∧
    PushOutcome.notPushed ≠ PushOutcome.pushedWithMeta true ∧
    PushOutcome.notPushed ≠ PushOutcome.pushedWithMeta false := by
  decide

/-- C5 (amended): when metadata cannot be packaged (packaging buffer
allocation or meta attachment fails) the push call logs and returns
early, so the frame is not pushed at all; when packaging succeeds the
frame reaches the pipeline and a failed pipeline push is logged as a
soft error that does not prevent a subsequent push from succeeding. -/
theorem C5_push_failure_paths (gs : SrcState) (ts : Nat) (env : PushEnv)
    (tr : List (Nat × PushEnv)) :
    ((env.allocOk = false ∨ env.metaOk = false) →
      (ems_gstreamer_src_push_frame gs ts env).2.2.2 = PushOutcome.notPushed) ∧
    (env.allocOk = true → env.metaOk = true →
      (ems_gstreamer_src_push_frame gs ts env).2.2.2 =
        PushOutcome.pushedWithMeta env.pushOk) ∧
    ((pushFrames gs (tr ++ [(ts, allOk)])).map (fun r => r.2.2)).getLast? =
      some (PushOutcome.pushedWithMeta true) := by
  refine ⟨?_, ?_, ?_⟩
  · intro h
    rcases h with h | h
    · simp [ems_gstreamer_src_push_frame, h]
    · cases ha : env.allocOk <;> simp [ems_gstreamer_src_push_frame, h, ha]
  · intro h1 h2
    simp [ems_gstreamer_src_push_frame, h1, h2]
  · rw [pushFrames_append, List.map_append]
    have hone : (pushFrames (runState gs tr) [(ts, allOk)]).map (fun r => r.2.2) =
        [PushOutcome.pushedWithMeta true] := rfl
    rw [hone]
    exact List.getLast?_concat _

/-- C5 witness: a push with failing buffer allocation is not pushed;
after a push whose pipeline hand-off failed, the next all-succeeding
push reaches the pipeline. -/
theorem C5_witness :
    (ems_gstreamer_src_push_frame initSrc 5 ⟨false, true, true⟩).2.2.2 =
      PushOutcome.notPushed ∧
    ((pushFrames initSrc ([(3, ⟨true, true, false⟩)] ++ [(5, allOk)])).map
      (fun r => r.2.2)).getLast? = some (PushOutcome.pushedWithMeta true) :=
  ⟨(C5_push_failure_paths initSrc 5 ⟨false, true, true⟩ []).1 (Or.inl rfl),
   (C5_push_failure_paths initSrc 5 allOk [(3, ⟨true, true, false⟩)]).2.2⟩

/-- C3 counterexample: with capture timestamps 0 then 5 the assigned
presentation timestamps are [0, 0], not the [0, 5] that "current
capture time minus the first frame's capture time" predicts — the
`offset_ns == 0` sentinel re-latches on the second frame. -/
theorem C3_counterexample :
    ptsList [0, 5] = [0, 0] ∧
    List.map (fun x => x - (0 : Nat)) [0, 5] = [0, 5] ∧
    ([0, 0] : List Nat) ≠ [0, 5] := by
  decide

/-- C3 (amended): for every push sequence with monotonically
non-decreasing capture timestamps (each below 2^64), the assigned
presentation timestamps are non-decreasing and the first pushed frame's
presentation timestamp is zero; moreover, when the first frame's
capture timestamp is nonzero it becomes time-zero: every presentation
timestamp is the current capture time minus the first frame's capture
time.  (When the first capture timestamp is zero, the offset latches
onto the first nonzero capture timestamp instead.) -/
theorem C3_pts_monotone_first_zero (tss : List Nat)
    (hs : tss.Sorted (· ≤ ·)) (hb : ∀ t ∈ tss, t < U64) :
    (ptsList tss).Sorted (· ≤ ·) ∧
    (∀ t rest, tss = t :: rest → (ptsList tss).head? = some 0) ∧
    (∀ t rest, tss = t :: rest → t ≠ 0 →
      ptsList tss = tss.map (fun x => x - t)) := by
  refine ⟨?_, ?_, ?_⟩
  · rw [ptsList_eq_ptsOf]
    exact sorted_ptsOf_zero tss 0 hs hb
  · intro t rest htss
    subst htss
    rw [ptsList_eq_ptsOf, ptsOf_cons]
    have hoff : initSrc.offset_ns = 0 := rfl
    rw [if_pos hoff, usub_self]
    rfl
  · intro t rest htss ht
    subst htss
    obtain ⟨hhead, hrest⟩ := List.sorted_cons.1 hs
    rw [ptsList_eq_ptsOf, ptsOf_cons]
    have hoff : initSrc.offset_ns = 0 := rfl
    rw [if_pos hoff, usub_self, ptsOf_offset_ne_zero rest ⟨t, t⟩ ht]
    rw [List.map_cons, Nat.sub_self]
    congr 1
    exact List.map_congr_left (fun x hx =>
      usub_eq_sub x t (hhead x hx) (hb x (List.mem_cons_of_mem _ hx)))

/-- C3 witness: pushing capture timestamps 10 then 15 yields the
non-decreasing presentation timestamps [0, 5]. -/
theorem C3_witness :
    (ptsList [10, 15]).Sorted (· ≤ ·) ∧ ptsList [10, 15] = [0, 5] :=
  have h := C3_pts_monotone_first_zero [10, 15] (by decide) (by decide)
  ⟨h.1, (h.2.2 10 [15] rfl (by decide)).trans (by decide)⟩

/-- Gap between successive capture timestamps, as assigned durations. -/
theorem durOf_eq (tss : List Nat) :
    ∀ gs : SrcState, tss.Sorted (· ≤ ·) → (∀ t ∈ tss, t < U64) →
      (∀ t, tss.head? = some t → gs.timestamp_ns ≤ t) →
      durOf gs tss =
        List.zipWith (fun cur prev => cur - prev) tss (gs.timestamp_ns :: tss) := by
  induction tss with
  | nil => intro gs _ _ _; rfl
  | cons t rest ih =>
    intro gs hs hb hhd
    obtain ⟨hhead, hrest⟩ := List.sorted_cons.1 hs
    rw [durOf_cons]
    have h1 : usub t gs.timestamp_ns = t - gs.timestamp_ns :=
      usub_eq_sub t gs.timestamp_ns (hhd t rfl) (hb t (List.mem_cons_self _ _))
    have h2 := ih ⟨if gs.offset_ns = 0 then t else gs.offset_ns, t⟩ hrest
      (fun x hx => hb x (List.mem_cons_of_mem _ hx))
      (by
        intro x hx
        cases rest with
        | nil => cases hx
        | cons y ys =>
          have hxy : y = x := by simpa using hx
          subst hxy
          exact hhead y (List.mem_cons_self _ _))
    rw [h1, h2, List.zipWith_cons_cons]

/-- C10: the last-sent-timestamp state is zero-initialized, so the
first pushed frame's assigned duration is its absolute capture
timestamp (the delta to the initial zero state), and every later
duration is the current capture timestamp minus the previous pushed
frame's capture timestamp. -/
theorem C10_duration_from_zero (tss : List Nat)
    (hs : tss.Sorted (· ≤ ·)) (hb : ∀ t ∈ tss, t < U64) :
    initSrc.timestamp_ns = 0 ∧
    durList tss = List.zipWith (fun cur prev => cur - prev) tss (0 :: tss) := by
  refine ⟨rfl, ?_⟩
  rw [durList_eq_durOf]
  exact durOf_eq tss initSrc hs hb (fun t _ => Nat.zero_le t)

/-- C10 witness: capture timestamps 3, 10, 10 get durations 3
(absolute first timestamp), 7 and 0. -/
theorem C10_witness : durList [3, 10, 10] = [3, 7, 0] :=
  ((C10_duration_from_zero [3, 10, 10] (by decide) (by decide)).2).trans (by decide)

end Ems
